import Mathlib

/-!
Verification development for the bunker-finder repository.

The development shallowly embeds the data-normalization, filter-index,
search/filter-evaluation and enrichment code of the repository
(src/hooks/useGeoJSON.ts, src/components/FortificationMap.tsx,
src/hooks/useExternalData.ts) and proves properties of the embedding.

JavaScript strings are modelled as lists of characters (`Str`); JS string
truthiness is emptiness testing; JS `undefined` is `Option.none`; property
bags are association lists where a later binding overrides an earlier one,
matching JS object assignment.
-/

/-- JS strings, modelled as lists of characters. -/
abbrev Str := List Char

/-- Model of JS `String.prototype.startsWith` on character lists. -/
def startsWithSeq : Str → Str → Bool
  | _, [] => true
  | [], _ :: _ => false
  | a :: as, b :: bs => a = b && startsWithSeq as bs

/-- Model of JS `String.prototype.includes`: `containsSeq hay needle`. -/
def containsSeq : Str → Str → Bool
  | [], needle => needle.isEmpty
  | h :: t, needle => startsWithSeq (h :: t) needle || containsSeq t needle

/-- Whitespace recognized by the model of JS `String.prototype.trim`. -/
def isSpaceChar (c : Char) : Bool :=
  c = ' ' || c = '\t' || c = '\n' || c = '\r'

/-- Model of JS `String.prototype.trim`. -/
def trimSeq (s : Str) : Str :=
  ((s.dropWhile isSpaceChar).reverse.dropWhile isSpaceChar).reverse

/-- Model of JS `String.prototype.toLowerCase` on one character: ASCII
uppercase and the Latin-1 uppercase letters are lowered, everything else is
unchanged.  (The source code only ever lowercases tag values and
diacritic-stripped text, for which this range is faithful.) -/
def toLowerJS (c : Char) : Char :=
  if 'A' ≤ c ∧ c ≤ 'Z' then Char.ofNat (c.toNat + 32)
  else if 0xC0 ≤ c.toNat ∧ c.toNat ≤ 0xDE ∧ c.toNat ≠ 0xD7 then
    Char.ofNat (c.toNat + 32)
  else c

/-- Model of JS `String.prototype.toLowerCase`. -/
def toLowerSeq (s : Str) : Str := s.map toLowerJS

/-- Model of the platform `String.prototype.normalize` with argument
`NFD` on one character: canonical decomposition, tabulated for the Latin-1
accented letters (the range exercised by the repository's data).  Other
characters decompose to themselves. -/
def nfdChar (c : Char) : List Char :=
  match c with
  | 'à' => ['a', '̀'] | 'á' => ['a', '́'] | 'â' => ['a', '̂']
  | 'ä' => ['a', '̈'] | 'è' => ['e', '̀'] | 'é' => ['e', '́']
  | 'ê' => ['e', '̂'] | 'ë' => ['e', '̈'] | 'ì' => ['i', '̀']
  | 'í' => ['i', '́'] | 'î' => ['i', '̂'] | 'ï' => ['i', '̈']
  | 'ò' => ['o', '̀'] | 'ó' => ['o', '́'] | 'ô' => ['o', '̂']
  | 'ö' => ['o', '̈'] | 'ù' => ['u', '̀'] | 'ú' => ['u', '́']
  | 'û' => ['u', '̂'] | 'ü' => ['u', '̈'] | 'ç' => ['c', '̧']
  | 'ñ' => ['n', '̃'] | 'ÿ' => ['y', '̈']
  | 'À' => ['A', '̀'] | 'Á' => ['A', '́'] | 'Â' => ['A', '̂']
  | 'Ä' => ['A', '̈'] | 'È' => ['E', '̀'] | 'É' => ['E', '́']
  | 'Ê' => ['E', '̂'] | 'Ë' => ['E', '̈'] | 'Ì' => ['I', '̀']
  | 'Í' => ['I', '́'] | 'Î' => ['I', '̂'] | 'Ï' => ['I', '̈']
  | 'Ò' => ['O', '̀'] | 'Ó' => ['O', '́'] | 'Ô' => ['O', '̂']
  | 'Ö' => ['O', '̈'] | 'Ù' => ['U', '̀'] | 'Ú' => ['U', '́']
  | 'Û' => ['U', '̂'] | 'Ü' => ['U', '̈'] | 'Ç' => ['C', '̧']
  | 'Ñ' => ['N', '̃']
  | _ => [c]

/-- The combining diacritical marks block U+0300 – U+036F, i.e. the
character class of the regular expression in `normalizeText`. -/
def isCombiningMark (c : Char) : Bool :=
  0x300 ≤ c.toNat && c.toNat ≤ 0x36F

/-- FortificationMap.tsx, `normalizeText`: NFD decomposition, removal of
combining diacritical marks, lowercasing, trimming — in that order. -/
def normalizeText (s : Str) : Str :=
  trimSeq (toLowerSeq (((s.map nfdChar).flatten).filter (fun c => !isCombiningMark c)))

/-- JS truthiness for an optional string: present and non-empty. -/
def truthyO (a : Option Str) : Bool :=
  match a with
  | some s => !s.isEmpty
  | none => false

/-- JS `a || b` on optional strings: `b` when `a` is absent or empty. -/
def orTruthy (a b : Option Str) : Option Str :=
  if truthyO a then a else b

/-- JS coercion of a possibly-undefined string used where `''` is the
final fallback of an `||` chain. -/
def jsStr (a : Option Str) : Str := a.getD []

/-- JS truthiness for an optional number: present and non-zero. -/
def truthyQ (a : Option ℚ) : Bool :=
  match a with
  | some q => q ≠ 0
  | none => false

/-- A JS object used as an open string-keyed property bag / tag record.
A later binding overrides an earlier one, as JS property assignment does. -/
abbrev Props := List (Str × Str)

/-- Property read `obj[k]`: value of the last binding of `k`, if any. -/
def getProp (p : Props) (k : Str) : Option Str :=
  match p.reverse.find? (fun e => decide (e.1 = k)) with
  | some e => some e.2
  | none => none

/-- Property write `obj[k] = v` (append; reads take the last binding). -/
def setProp (p : Props) (k : Str) (v : Str) : Props := p ++ [(k, v)]

/-- Key presence (JS `k in obj`), irrespective of the value. -/
def hasKey (p : Props) (k : Str) : Bool := (getProp p k).isSome

/-- GeoJSON geometry: `PointGeometry` ([lon, lat]) or `PolygonGeometry`
(list of linear rings), from src/types/fortification.ts. -/
inductive Geom where
  | point (lon lat : ℚ)
  | polygon (rings : List (List (ℚ × ℚ)))
deriving DecidableEq

/-- Canonical feature (`FortificationType` of src/types/fortification.ts):
`type`, optional `id`, geometry and a property bag. -/
structure Feature where
  ftype : Str
  fid : Option Str
  geometry : Geom
  props : Props
deriving DecidableEq

/-- An element of the OSM Overpass wire format (`OSMResponse.elements`
entry of src/hooks/useGeoJSON.ts). -/
structure OSMElement where
  etype : Str
  eid : Int
  lat : Option ℚ
  lon : Option ℚ
  tags : Option Props
deriving DecidableEq

/-- The OSM Overpass document shape (the `elements` container). -/
structure OSMResponse where
  elements : List OSMElement
deriving DecidableEq

/- String constants used by the embedded code. -/

def kNode : Str := "node".toList
def kHistoric : Str := "historic".toList
def kMilitary : Str := "military".toList
def kDefence : Str := "defence".toList
def kDefense : Str := "defense".toList
def kBunkerLower : Str := "bunker".toList
def kFortressLower : Str := "fortress".toList
def kAtId : Str := "@id".toList
def kDisplayType : Str := "display_type".toList
def kFeatureWord : Str := "Feature".toList
def kName : Str := "name".toList
def kChpdeno : Str := "chpdeno".toList
def kChpadrs : Str := "chpadrs".toList
def kChplieu : Str := "chplieu".toList
def kChptico : Str := "chptico".toList
def kChpreg : Str := "chpreg".toList
def kPeriod : Str := "period".toList
def kRegion : Str := "region".toList
def kType : Str := "type".toList
def kBuilding : Str := "building".toList
def kUnknown : Str := "Unknown".toList
def kTypeName : Str := "Type".toList
def kPeriodName : Str := "Period".toList
def kRegionName : Str := "Region".toList
def kTypeDash : Str := "type-".toList
def kPeriodDash : Str := "period-".toList
def kRegionDash : Str := "region-".toList

/-- `fortificationTags` of `convertOSMToGeoJSON` (useGeoJSON.ts:144). -/
def fortificationTags : List Str :=
  ["castle".toList, "fort".toList, "bunker".toList, "fortification".toList,
   "fortress".toList, "citadel".toList, "bastion".toList, "battery".toList,
   "palace".toList, "chateau".toList, "tower".toList, "mansion".toList]

/-- `typeMapping` of `convertOSMToGeoJSON` (useGeoJSON.ts:160), in the
source's insertion order (the order `Object.entries` iterates). -/
def typeMappingL : List (Str × Str) :=
  [("castle".toList, "Castle".toList),
   ("fort".toList, "Fort".toList),
   ("fortress".toList, "Fortress".toList),
   ("bunker".toList, "Bunker".toList),
   ("fortification".toList, "Fortification".toList),
   ("citadel".toList, "Citadel".toList),
   ("bastion".toList, "Bastion".toList),
   ("battery".toList, "Battery".toList),
   ("palace".toList, "Palace".toList),
   ("chateau".toList, "Château".toList),
   ("tower".toList, "Tower".toList),
   ("mansion".toList, "Mansion".toList)]

/-- The `.filter(element => ...)` predicate of `convertOSMToGeoJSON`
(useGeoJSON.ts:177-201): keep an element when it has a tag record and is
historic / military / defence-tagged in the code's sense. -/
def retainElement (e : OSMElement) : Bool :=
  match e.tags with
  | none => false
  | some tags =>
    let historic := getProp tags kHistoric
    let military := getProp tags kMilitary
    let isHistoric := truthyO historic &&
      fortificationTags.any (fun tag =>
        containsSeq (toLowerSeq (jsStr historic)) (toLowerSeq tag))
    let isMilitary := truthyO military &&
      (toLowerSeq (jsStr military) = kBunkerLower ||
       toLowerSeq (jsStr military) = kFortressLower)
    let hasDefenceTag := truthyO (getProp tags kDefence) ||
      truthyO (getProp tags kDefense)
    isHistoric || isMilitary || hasDefenceTag

/-- Geometry built by the `.map(element => ...)` step of
`convertOSMToGeoJSON` (useGeoJSON.ts:203-220): a Point at
[lon, lat] for a node with truthy lat and lon, the placeholder Point at
[0, 0] otherwise. -/
def elementGeometry (e : OSMElement) : Geom :=
  if e.etype = kNode ∧ truthyQ e.lat ∧ truthyQ e.lon then
    .point ((e.lon).getD 0) ((e.lat).getD 0)
  else
    .point 0 0

/-- Decimal rendering of an OSM numeric id (`element.id.toString()`). -/
def intToStr (i : Int) : Str :=
  if i < 0 then '-' :: Nat.toDigits 10 i.natAbs else Nat.toDigits 10 i.natAbs

/-- The synthesized identifier property value `"<kind>/<id>"`. -/
def atIdOf (e : OSMElement) : Str := e.etype ++ ['/'] ++ intToStr e.eid

/-- Property bag built by the `.map(element => ...)` step of
`convertOSMToGeoJSON` (useGeoJSON.ts:222-252): the element's tags spread
into a fresh object, an `@id` entry, and the best-effort `display_type`
derivation (mapping scan over the historic tag, then the raw historic tag,
then the military-derived label). -/
def elementProps (e : OSMElement) : Props :=
  let tags := (e.tags).getD []
  let base := tags ++ [(kAtId, atIdOf e)]
  let historic := getProp tags kHistoric
  let military := getProp tags kMilitary
  let p1 :=
    if truthyO historic then
      match typeMappingL.find? (fun kv =>
          containsSeq (toLowerSeq (jsStr historic)) kv.1) with
      | some kv => setProp base kDisplayType kv.2
      | none => base
    else base
  let p2 :=
    if ¬ truthyO (getProp p1 kDisplayType) ∧ truthyO historic then
      setProp p1 kDisplayType (jsStr historic)
    else p1
  if ¬ truthyO (getProp p2 kDisplayType) ∧ truthyO military then
    (if toLowerSeq (jsStr military) = kBunkerLower then
       setProp p2 kDisplayType ("Bunker".toList)
     else if toLowerSeq (jsStr military) = kFortressLower then
       setProp p2 kDisplayType ("Fortress".toList)
     else p2)
  else p2

/-- The feature returned by the `.map(element => ...)` step
(useGeoJSON.ts:254-259). -/
def buildFeature (e : OSMElement) : Feature :=
  { ftype := kFeatureWord
    fid := some (intToStr e.eid)
    geometry := elementGeometry e
    props := elementProps e }

/-- The final `.filter` of `convertOSMToGeoJSON` (useGeoJSON.ts:262-269)
drops features whose geometry is a Point at exactly [0, 0]. -/
def isZeroPoint (g : Geom) : Bool :=
  match g with
  | .point lon lat => lon = 0 ∧ lat = 0
  | .polygon _ => false

/-- `convertOSMToGeoJSON` (useGeoJSON.ts:142-273): filter the elements to
fortification-tagged ones, map them to features, drop the [0, 0]
placeholders. -/
def convertOSMToGeoJSON (osm : OSMResponse) : List Feature :=
  (((osm.elements.filter retainElement).map buildFeature).filter
    (fun f => !isZeroPoint f.geometry))

/-- Retention predicate as the specification states it: a tag mapping is
present and (i) the historic tag value case-insensitively contains one of
the twelve vocabulary words, or (ii) the military tag value is exactly
"bunker" or "fortress" case-insensitively, or (iii) a defence or defense
tag key is present regardless of its value. -/
def specRetainStated (e : OSMElement) : Bool :=
  match e.tags with
  | none => false
  | some tags =>
    let specHistoric :=
      match getProp tags kHistoric with
      | some hv => fortificationTags.any (fun w =>
          containsSeq (toLowerSeq hv) (toLowerSeq w))
      | none => false
    let specMilitary :=
      match getProp tags kMilitary with
      | some mv => toLowerSeq mv = kBunkerLower || toLowerSeq mv = kFortressLower
      | none => false
    let specDefence := hasKey tags kDefence || hasKey tags kDefense
    specHistoric || specMilitary || specDefence

/-- Retention predicate with clause (iii) amended: the defence/defense tag
must carry a non-empty value. -/
def specRetainAmended (e : OSMElement) : Bool :=
  match e.tags with
  | none => false
  | some tags =>
    let specHistoric :=
      match getProp tags kHistoric with
      | some hv => fortificationTags.any (fun w =>
          containsSeq (toLowerSeq hv) (toLowerSeq w))
      | none => false
    let specMilitary :=
      match getProp tags kMilitary with
      | some mv => toLowerSeq mv = kBunkerLower || toLowerSeq mv = kFortressLower
      | none => false
    let specDefence := truthyO (getProp tags kDefence) ||
      truthyO (getProp tags kDefense)
    specHistoric || specMilitary || specDefence

/-- A way element without lat/lon, the placeholder case of claim C1. -/
def wayElemC1 : OSMElement :=
  { etype := "way".toList
    eid := 77
    lat := none
    lon := none
    tags := some [(kHistoric, "castle".toList)] }

/-- An OSM document mixing a node and a placeholder-producing way. -/
def osmDocC1 : OSMResponse :=
  { elements :=
      [{ etype := kNode, eid := 5, lat := some 10, lon := some 20,
         tags := some [(kHistoric, "fort".toList)] },
       wayElemC1] }

/-- The one-node scenario input of claim C2. -/
def osmDocC2 : OSMResponse :=
  { elements :=
      [{ etype := kNode, eid := 1, lat := some (mkRat 244 5),
         lon := some (mkRat 23 10),
         tags := some [(kHistoric, "castle".toList),
                       (kName, "Test Castle".toList)] }] }

/-- A node whose only tag is a defence key with an empty value: the
divergence point of claim C3. -/
def elemDefenceEmpty : OSMElement :=
  { etype := kNode
    eid := 2
    lat := some 1
    lon := some 1
    tags := some [(kDefence, [])] }

/-- The map view's active facet selection (`activeFilters`): a JS object
whose keys are facet ids and whose values are a string or `null`. -/
abbrev ActiveF := List (Str × Option Str)

/-- Read `activeFilters[k]` (`null` and absent both give `none`). -/
def getActive (af : ActiveF) (k : Str) : Option Str :=
  match af.find? (fun e => decide (e.1 = k)) with
  | some e => e.2
  | none => none

/-- `fort.properties.name || fort.properties.chpdeno || ''`
(FortificationMap.tsx:303,310). -/
def nameOf (f : Feature) : Str :=
  jsStr (orTruthy (getProp f.props kName) (getProp f.props kChpdeno))

/-- `fort.properties.chpadrs || fort.properties.chplieu || ''`
(FortificationMap.tsx:317). -/
def addrOf (f : Feature) : Str :=
  jsStr (orTruthy (getProp f.props kChpadrs) (getProp f.props kChplieu))

/-- The search test of `filteredFortifications`
(FortificationMap.tsx:316-330): the normalized search term is a substring
of the normalized name or of the normalized address. -/
def matchesSearchTerm (f : Feature) (st : Str) : Bool :=
  containsSeq (normalizeText (nameOf f)) (normalizeText st) ||
  containsSeq (normalizeText (addrOf f)) (normalizeText st)

/-- `fort.properties.chptico || fort.properties.historic`
(FortificationMap.tsx:334) — the value the type facet is compared
against. -/
def codeTypeOf (f : Feature) : Option Str :=
  orTruthy (getProp f.props kChptico) (getProp f.props kHistoric)

/-- The per-feature predicate of `filteredFortifications`'s filter branch
(FortificationMap.tsx:308-358): unnamed exclusion first, then the search
test, then the type/period/region facets, conjoined. -/
def passesAll (af : ActiveF) (st : Str) (f : Feature) : Bool :=
  if (trimSeq (nameOf f)).isEmpty then false
  else if !st.isEmpty && !matchesSearchTerm f st then false
  else if truthyO (getActive af kType) &&
      decide (codeTypeOf f ≠ getActive af kType) then false
  else if truthyO (getActive af kPeriod) &&
      decide (getProp f.props kPeriod ≠ getActive af kPeriod) then false
  else if truthyO (getActive af kRegion) &&
      decide (getProp f.props kRegion ≠ getActive af kRegion) then false
  else true

/-- `filteredFortifications` (FortificationMap.tsx:299-359): with no
search term and no filter keys, only the unnamed exclusion applies;
otherwise the full conjunction applies. -/
def filteredFortifications (forts : List Feature) (af : ActiveF) (st : Str) :
    List Feature :=
  if st.isEmpty ∧ af.isEmpty then
    forts.filter (fun f => !(trimSeq (nameOf f)).isEmpty)
  else
    forts.filter (passesAll af st)

/-- First truthy entry of a fallback chain of property reads. -/
def firstTruthy : List (Option Str) → Option Str
  | [] => none
  | a :: rest => if truthyO a then a else firstTruthy rest

/-- Resolved type as claim C4 states it: display-type field first, then
the legacy ticket field, then the raw historic field, then
building/military fields, first non-empty wins. -/
def specResolvedType (f : Feature) : Option Str :=
  firstTruthy [getProp f.props kDisplayType, getProp f.props kChptico,
               getProp f.props kHistoric, getProp f.props kBuilding,
               getProp f.props kMilitary]

/-- A named feature whose display_type is "Castle" but whose raw historic
tag is "castle" (the shape the OSM normalizer itself produces): the
divergence point of claim C4. -/
def fortC4 : Feature :=
  { ftype := kFeatureWord
    fid := some ("10".toList)
    geometry := Geom.point (mkRat 1 1) (mkRat 1 1)
    props := [(kName, "A Castle".toList), (kHistoric, "castle".toList),
              (kDisplayType, "Castle".toList)] }

/-- A named feature whose chptico is "Castle", kept by the type facet. -/
def fortC4kept : Feature :=
  { ftype := kFeatureWord
    fid := some ("11".toList)
    geometry := Geom.point (mkRat 2 1) (mkRat 2 1)
    props := [(kName, "B Castle".toList), (kChptico, "Castle".toList)] }

/-- A feature named "Château" (accented). -/
def fortChateauAcc : Feature :=
  { ftype := kFeatureWord
    fid := some ("20".toList)
    geometry := Geom.point (mkRat 3 1) (mkRat 3 1)
    props := [(kName, "Château".toList)] }

/-- A feature named "chateau" (unaccented). -/
def fortChateauPlain : Feature :=
  { ftype := kFeatureWord
    fid := some ("21".toList)
    geometry := Geom.point (mkRat 4 1) (mkRat 4 1)
    props := [(kName, "chateau".toList)] }

/-- A feature named "Forêt" (accented). -/
def fortForetAcc : Feature :=
  { ftype := kFeatureWord
    fid := some ("22".toList)
    geometry := Geom.point (mkRat 5 1) (mkRat 5 1)
    props := [(kName, "Forêt".toList)] }

/-- A feature named "foret" (unaccented). -/
def fortForetPlain : Feature :=
  { ftype := kFeatureWord
    fid := some ("23".toList)
    geometry := Geom.point (mkRat 6 1) (mkRat 6 1)
    props := [(kName, "foret".toList)] }

/-- A feature with only whitespace for a name and no chpdeno. -/
def fortUnnamed : Feature :=
  { ftype := kFeatureWord
    fid := some ("30".toList)
    geometry := Geom.point (mkRat 7 1) (mkRat 7 1)
    props := [(kName, " ".toList), (kChplieu, "Paris".toList),
              (kChptico, "Castle".toList)] }

/-- `FilterOption` of src/types/fortification.ts. -/
structure FilterOption where
  oid : Str
  label : Str
  value : Str
  count : Nat
deriving DecidableEq

/-- `FilterGroup` of src/types/fortification.ts. -/
structure FilterGroup where
  gid : Str
  gname : Str
  options : List FilterOption
deriving DecidableEq

/-- One `map.set(k, (map.get(k) || 0) + 1)` step on a JS `Map`, modelled
as an insertion-ordered association list (JS Map iteration order). -/
def bump : List (Str × Nat) → Str → List (Str × Nat)
  | [], k => [(k, 1)]
  | (k0, c0) :: t, k => if k0 = k then (k0, c0 + 1) :: t else (k0, c0) :: bump t k

/-- The count recorded for a key (0 when the key is absent). -/
def cnt : List (Str × Nat) → Str → Nat
  | [], _ => 0
  | (k0, c0) :: t, k => if k0 = k then c0 else cnt t k

/-- The keys of a count map, in insertion order. -/
def keysOf (m : List (Str × Nat)) : List Str := m.map (fun e => e.1)

/-- One iteration of the `forts.forEach` loop of `generateFilters` for
one of the three maps: bump when the extracted key is present. -/
def stepOf (keyOf : Feature → Option Str) (m : List (Str × Nat)) (f : Feature) :
    List (Str × Nat) :=
  match keyOf f with
  | some k => bump m k
  | none => m

/-- The count map accumulated by the `forts.forEach` loop of
`generateFilters` (useGeoJSON.ts:74-96). -/
def countMapBy (keyOf : Feature → Option Str) (forts : List Feature) :
    List (Str × Nat) :=
  forts.foldl (stepOf keyOf) []

/-- `fort.properties.chptico || fort.properties.historic || 'Unknown'`
(useGeoJSON.ts:76-77); always a non-empty string. -/
def typeKeyOf (f : Feature) : Str :=
  jsStr (orTruthy (getProp f.props kChptico)
    (orTruthy (getProp f.props kHistoric) (some kUnknown)))

/-- The period key bumped when `fort.properties.period` is truthy
(useGeoJSON.ts:84-89). -/
def periodKeyOf (f : Feature) : Option Str :=
  if truthyO (getProp f.props kPeriod) then getProp f.props kPeriod else none

/-- The region key bumped when `fort.properties.chpreg` is truthy
(useGeoJSON.ts:92-95). -/
def regionKeyOf (f : Feature) : Option Str :=
  if truthyO (getProp f.props kChpreg) then getProp f.props kChpreg else none

/-- `Array.from(map.entries()).map(([value, count]) => ({id, label,
value, count}))` (useGeoJSON.ts:99-124). -/
def mkOptions (pre : Str) (m : List (Str × Nat)) : List FilterOption :=
  m.map (fun e => { oid := pre ++ e.1, label := e.1, value := e.1, count := e.2 })

/-- Stable insertion of one option into a count-descending list — one
step of the model of the stable `sort((a, b) => b.count - a.count)`. -/
def insertDesc (x : FilterOption) : List FilterOption → List FilterOption
  | [] => [x]
  | y :: t => if y.count < x.count then x :: y :: t else y :: insertDesc x t

/-- The stable sort of the options by count descending
(useGeoJSON.ts:127-129; `Array.prototype.sort` is stable). -/
def sortDesc (l : List FilterOption) : List FilterOption :=
  l.foldl (fun acc x => insertDesc x acc) []

/-- The type group's sorted options (useGeoJSON.ts:99-106,127). -/
def typeOptionsOf (forts : List Feature) : List FilterOption :=
  sortDesc (mkOptions kTypeDash (countMapBy (fun f => some (typeKeyOf f)) forts))

/-- The period group's sorted options (useGeoJSON.ts:108-115,128). -/
def periodOptionsOf (forts : List Feature) : List FilterOption :=
  sortDesc (mkOptions kPeriodDash (countMapBy periodKeyOf forts))

/-- The region group's sorted options (useGeoJSON.ts:117-124,129). -/
def regionOptionsOf (forts : List Feature) : List FilterOption :=
  sortDesc (mkOptions kRegionDash (countMapBy regionKeyOf forts))

/-- The always-present type group. -/
def typeGroupOf (forts : List Feature) : FilterGroup :=
  { gid := kType, gname := kTypeName, options := typeOptionsOf forts }

/-- The period group. -/
def periodGroupOf (forts : List Feature) : FilterGroup :=
  { gid := kPeriod, gname := kPeriodName, options := periodOptionsOf forts }

/-- The region group. -/
def regionGroupOf (forts : List Feature) : FilterGroup :=
  { gid := kRegion, gname := kRegionName, options := regionOptionsOf forts }

/-- `generateFilters` (useGeoJSON.ts:48-139): a type group always, a
period group and a region group only when their option lists are
non-empty. -/
def generateFilters (forts : List Feature) : List FilterGroup :=
  [typeGroupOf forts] ++
  (if 0 < (periodOptionsOf forts).length then [periodGroupOf forts] else []) ++
  (if 0 < (regionOptionsOf forts).length then [regionGroupOf forts] else [])

/-- The key each of the three facet groups counts a feature under. -/
def groupKeyOf (gid : Str) (f : Feature) : Option Str :=
  if gid = kType then some (typeKeyOf f)
  else if gid = kPeriod then periodKeyOf f
  else if gid = kRegion then regionKeyOf f
  else none

/-- A feature with no classification field and a period. -/
def fortDemoA : Feature :=
  { ftype := kFeatureWord
    fid := some ("40".toList)
    geometry := Geom.point (mkRat 8 1) (mkRat 8 1)
    props := [(kName, "A".toList), (kPeriod, "Medieval".toList)] }

/-- A second feature with no classification field and the same period. -/
def fortDemoB : Feature :=
  { ftype := kFeatureWord
    fid := some ("41".toList)
    geometry := Geom.point (mkRat 9 1) (mkRat 9 1)
    props := [(kName, "B".toList), (kPeriod, "Medieval".toList)] }

/- Enrichment client (src/hooks/useExternalData.ts; the fuller revision
kept in the repository adds a Wikimedia-Commons image search step).  The
JS object graph is modelled with an explicit store: a feature holds the
address of its properties object, `{...fort}` copies the address (shallow
spread), and property writes go through the store. -/

/-- One day, in milliseconds (`oneDayAgo` is modelled as `now - oneDayMs`;
the source subtracts one calendar day from the current date). -/
def oneDayMs : Int := 86400000

/-- The property bag of a feature as the enrichment client reads and
writes it (string tags it consults, plus the enhanced fields of
`FortificationProperties`; `lastFetched` as a timestamp). -/
structure EProps where
  name : Option Str
  wikipedia : Option Str
  wikidata : Option Str
  denomination : Option Str
  chpnom : Option Str
  period : Option Str
  constructionStyle : Option Str
  description : Option Str
  imageSource : Option Str
  imageUrls : Option (List Str)
  externalLinks : Option (List (Str × Str))
  lastFetched : Option Int
deriving DecidableEq

/-- A feature as the enrichment client sees it: the address of its
properties object, and its geometry (used for the coordinate fallback of
the image search key). -/
structure EFort where
  propsRef : Nat
  geom : Geom
deriving DecidableEq

/-- The heap of properties objects. -/
abbrev Store := List (Nat × EProps)

/-- The all-absent properties object. -/
def emptyEProps : EProps :=
  { name := none, wikipedia := none, wikidata := none, denomination := none,
    chpnom := none, period := none, constructionStyle := none,
    description := none, imageSource := none, imageUrls := none,
    externalLinks := none, lastFetched := none }

/-- Dereference a properties address. -/
def storeGet (σ : Store) (r : Nat) : EProps :=
  match σ.find? (fun e => decide (e.1 = r)) with
  | some e => e.2
  | none => emptyEProps

/-- Overwrite the properties object at an address. -/
def storeSet (σ : Store) (r : Nat) (p : EProps) : Store := (r, p) :: σ

/-- One page of the modelled Wikipedia response (`query.pages` entry). -/
structure WikiPage where
  extract : Option Str
  thumbnail : Option Str
deriving DecidableEq

/-- The response shape `enrichFortification` reads from the Wikipedia
summary fetch: an optional `query.pages` object (first key used). -/
structure WikipediaApiResponse where
  pages : Option (List (Str × WikiPage))
deriving DecidableEq

/-- A modelled Wikidata entity: the P2348 (period) and P149
(architectural style) claim lists, each claim reduced to its
`mainsnak.datavalue.value` rendered as an optional string. -/
structure WdEntity where
  p2348 : Option (List (Option Str))
  p149 : Option (List (Option Str))
deriving DecidableEq

/-- The response shape of the Wikidata entity fetch. -/
structure WikidataApiResponse where
  entities : Option (List (Str × WdEntity))
deriving DecidableEq

/-- The outcomes of the network fetches an enrichment run can issue, as
oracles: each field is the settled result (`.error` = rejected promise /
non-ok response body unavailable) of the corresponding endpoint. -/
structure NetOracle where
  commonsSearch : Except Str (Option (List Str))
  commonsImageInfo : Str → Except Str (Option Str)
  wikipediaSummary : Except Str WikipediaApiResponse
  wikipediaImagesList : Except Str (Option (List Str))
  wikipediaImageInfo : Str → Except Str (Option Str)
  wikidataEntity : Except Str WikidataApiResponse

/- Names of the network calls, for the lookup trace. -/

def kCallCommonsSearch : Str := "commons-search".toList
def kCallCommonsImageInfo : Str := "commons-imageinfo".toList
def kCallWikidata : Str := "wikidata-entity".toList
def kCallWikipediaSummary : Str := "wikipedia-summary".toList
def kCallWikipediaImages : Str := "wikipedia-images".toList
def kCallWikipediaImageInfo : Str := "wikipedia-imageinfo".toList

/-- The preset fallback image list of `fetchGoogleImages`. -/
def fallbackImages : List Str :=
  ["https://upload.wikimedia.org/wikipedia/commons/thumb/2/2c/Chateau_de_Bonaguil_vu_du_ciel.jpg/800px-Chateau_de_Bonaguil_vu_du_ciel.jpg".toList,
   "https://upload.wikimedia.org/wikipedia/commons/thumb/e/e6/Maginot_Line_Fort_Hackenberg.jpg/800px-Maginot_Line_Fort_Hackenberg.jpg".toList,
   "https://upload.wikimedia.org/wikipedia/commons/thumb/3/3b/Fort_Boyard_Charente_Maritime.jpg/800px-Fort_Boyard_Charente_Maritime.jpg".toList,
   "https://upload.wikimedia.org/wikipedia/commons/thumb/9/9e/Tour_Vauban_de_Camaret.jpg/800px-Tour_Vauban_de_Camaret.jpg".toList,
   "https://upload.wikimedia.org/wikipedia/commons/thumb/b/b1/Fortifications_Vauban_Briançon.jpg/800px-Fortifications_Vauban_Briançon.jpg".toList]

/-- `searchWikimediaCommons` with its trace: the search fetch, then one
imageinfo fetch per selected result (each individually caught, a failed
one contributing `null` which is filtered out). -/
def searchWikimediaCommonsT (o : NetOracle) : List Str × List Str :=
  match o.commonsSearch with
  | .error _ => ([], [kCallCommonsSearch])
  | .ok none => ([], [kCallCommonsSearch])
  | .ok (some items) =>
    ((((items.take 5).map (fun t =>
        match o.commonsImageInfo t with
        | .error _ => none
        | .ok r => r)).filterMap id),
     kCallCommonsSearch :: (items.take 5).map (fun _ => kCallCommonsImageInfo))

/-- `fetchGoogleImages` with its trace: the Wikimedia Commons search,
falling back to the preset list when it finds nothing.  The search-term
argument only shapes the request URL; the oracle fixes the response. -/
def fetchGoogleImagesT (o : NetOracle) (_sk : Str) : List Str × List Str :=
  if (searchWikimediaCommonsT o).1.isEmpty then
    (fallbackImages, (searchWikimediaCommonsT o).2)
  else searchWikimediaCommonsT o

/-- `fetchWikipediaData`: a rejected or non-ok fetch is caught and
yields the empty response. -/
def fetchWikipediaDataM (o : NetOracle) : WikipediaApiResponse :=
  match o.wikipediaSummary with
  | .ok r => r
  | .error _ => { pages := none }

/-- `fetchWikidataData`: a rejected or non-ok fetch is caught and yields
the empty response. -/
def fetchWikidataDataM (o : NetOracle) : WikidataApiResponse :=
  match o.wikidataEntity with
  | .ok r => r
  | .error _ => { entities := none }

/-- The image-name filter of `fetchWikipediaImages`. -/
def imageNameOk (t : Str) : Bool :=
  !containsSeq t ("Icon".toList) && !containsSeq t ("Logo".toList) &&
  !containsSeq t ("Pictogram".toList) &&
  (containsSeq t (".jpg".toList) || containsSeq t (".png".toList) ||
   containsSeq t (".jpeg".toList))

/-- `fetchWikipediaImages` with its trace.  The per-image fetches are not
individually guarded, so one rejection rejects the `Promise.all` and the
outer catch returns the empty list. -/
def fetchWikipediaImagesT (o : NetOracle) : List Str × List Str :=
  match o.wikipediaImagesList with
  | .error _ => ([], [kCallWikipediaImages])
  | .ok none => ([], [kCallWikipediaImages])
  | .ok (some titles) =>
    if (titles.filter imageNameOk).isEmpty then ([], [kCallWikipediaImages])
    else
      match ((titles.filter imageNameOk).take 5).mapM o.wikipediaImageInfo with
      | .error _ =>
        ([], kCallWikipediaImages ::
          ((titles.filter imageNameOk).take 5).map (fun _ => kCallWikipediaImageInfo))
      | .ok urls =>
        (urls.filterMap id,
         kCallWikipediaImages ::
          ((titles.filter imageNameOk).take 5).map (fun _ => kCallWikipediaImageInfo))

/-- `s.split(':').slice(1).join(':')`: everything after the first colon. -/
def afterColon (s : Str) : Str :=
  match s.dropWhile (fun c => c ≠ ':') with
  | [] => []
  | _ :: t => t

/-- `s.split(':')[0]`: everything before the first colon. -/
def beforeColon (s : Str) : Str := s.takeWhile (fun c => c ≠ ':')

/-- Decimal-fraction rendering of a rational, standing in for the JS
number-to-string coercion inside the coordinate fallback (the exact
digits are irrelevant to every claim; only the selection chain is). -/
def ratToStr (q : ℚ) : Str := intToStr q.num ++ ['/'] ++ intToStr (q.den : Int)

/-- The coordinate-based fallback search string
`Fortification at lat, lon`. -/
def coordFallback (g : Geom) : Str :=
  match g with
  | .point lon lat =>
    ("Fortification at ".toList) ++ ratToStr lat ++ (", ".toList) ++ ratToStr lon
  | .polygon _ => "Fortification at undefined, undefined".toList

/-- The search key: name, else the Wikipedia title, else denomination,
else chpnom, else the coordinate fallback. -/
def searchKeyOf (fort : EFort) (p : EProps) : Str :=
  jsStr (orTruthy p.name (orTruthy (p.wikipedia.map afterColon)
    (orTruthy p.denomination (orTruthy p.chpnom (some (coordFallback fort.geom))))))

/-- Association-list lookup, for keyed JS-object reads. -/
def lookupEntry {α : Type} (l : List (Str × α)) (k : Str) : Option α :=
  match l.find? (fun e => decide (e.1 = k)) with
  | some e => some e.2
  | none => none

/-- The Wikidata step applied to the properties object: map the first
P2348 claim into `period` and the first P149 claim into
`constructionStyle` when their values are present and truthy. -/
def applyWikidata (o : NetOracle) (p : EProps) (wkd : Str) : EProps :=
  match (fetchWikidataDataM o).entities with
  | none => p
  | some ents =>
    match lookupEntry ents wkd with
    | none => p
    | some ent =>
      let pa :=
        match ent.p2348 with
        | none => p
        | some claimsL =>
          match claimsL.head? with
          | some (some v) => if !v.isEmpty then { p with period := some v } else p
          | _ => p
      match ent.p149 with
      | none => pa
      | some claimsL =>
        match claimsL.head? with
        | some (some v) =>
          if !v.isEmpty then { pa with constructionStyle := some v } else pa
        | _ => pa

/-- The Wikipedia step applied to the properties object: extract →
description, thumbnail appended to the image list, the secondary image
fetch replacing the image list when non-empty, and the generated
external link appended. -/
def applyWikipedia (o : NetOracle) (p : EProps) (wp : Str) : EProps :=
  let pA :=
    match (fetchWikipediaDataM o).pages with
    | none => p
    | some pages =>
      match pages.head? with
      | none => p
      | some pr =>
        let pE :=
          match pr.2.extract with
          | some ext => if !ext.isEmpty then { p with description := some ext } else p
          | none => p
        match pr.2.thumbnail with
        | some th =>
          if !th.isEmpty then
            { pE with imageUrls := some ((pE.imageUrls).getD [] ++ [th]),
                      imageSource := some ("wikipedia".toList) }
          else pE
        | none => pE
  let pB :=
    if !(fetchWikipediaImagesT o).1.isEmpty then
      { pA with imageUrls := some (fetchWikipediaImagesT o).1,
                imageSource := some ("wikipedia".toList) }
    else pA
  { pB with
    externalLinks := some ((pB.externalLinks).getD [] ++
      [(("Wikipedia".toList),
        ("https://".toList) ++ beforeColon wp ++ (".wikipedia.org/wiki/".toList)
          ++ afterColon wp)]) }

/-- The image-search step: replace the image list and tag the source
when the lookup produced anything. -/
def enrichGoogleStep (o : NetOracle) (fort : EFort) (p : EProps) : EProps :=
  if !(fetchGoogleImagesT o (searchKeyOf fort p)).1.isEmpty then
    { p with imageUrls := some (fetchGoogleImagesT o (searchKeyOf fort p)).1,
             imageSource := some ("google".toList) }
  else p

/-- The guarded Wikidata step (`p0` is the destructured `properties`
whose `wikidata` field gates the call; it aliases the object being
written, whose `wikidata` field no step writes). -/
def enrichWikidataStep (o : NetOracle) (p0 p : EProps) : EProps :=
  if truthyO p0.wikidata then applyWikidata o p (jsStr p0.wikidata) else p

/-- The guarded Wikipedia step. -/
def enrichWikipediaStep (o : NetOracle) (p0 p : EProps) : EProps :=
  if truthyO p0.wikipedia then applyWikipedia o p (jsStr p0.wikipedia) else p

/-- The whole sequence of writes a stale enrichment run makes to the
properties object, before the final `lastFetched` stamp. -/
def enrichProps (o : NetOracle) (fort : EFort) (p : EProps) : EProps :=
  enrichWikipediaStep o p (enrichWikidataStep o p (enrichGoogleStep o fort p))

/-- The trace of the Wikipedia step's calls. -/
def wikipediaStepTrace (o : NetOracle) : List Str :=
  kCallWikipediaSummary :: (fetchWikipediaImagesT o).2

/-- The network calls a stale enrichment run issues. -/
def enrichTrace (o : NetOracle) (fort : EFort) (p : EProps) : List Str :=
  (fetchGoogleImagesT o (searchKeyOf fort p)).2 ++
  (if truthyO p.wikidata then [kCallWikidata] else []) ++
  (if truthyO p.wikipedia then wikipediaStepTrace o else [])

/-- The freshness check (part_004:224-233): skip when `lastFetched` is
present and strictly later than one day before now. -/
def isFresh (p : EProps) (now : Int) : Bool :=
  match p.lastFetched with
  | some t => decide (now - oneDayMs < t)
  | none => false

/-- The result of one enrichment call: the returned feature, the heap
after the call, and the network calls issued. -/
structure EnrichOut where
  fort : EFort
  store : Store
  trace : List Str
deriving DecidableEq

/-- The stale path of `enrichFortification`: run the steps against the
shared properties object, stamp `lastFetched`, return the spread copy
(which holds the same properties address). -/
def enrichStale (o : NetOracle) (now : Int) (σ : Store) (fort : EFort)
    (p : EProps) : EnrichOut :=
  { fort := fort
    store := storeSet σ fort.propsRef
      { enrichProps o fort p with lastFetched := some now }
    trace := enrichTrace o fort p }

/-- `enrichFortification` (part_004:214-347).  `fault` is the oracle for
an unexpected exception escaping into the top-level try/catch (every
network failure is already caught inside its own step): when it fires,
the catch returns the original feature with nothing written. -/
def enrichFortification (o : NetOracle) (fault : Bool) (now : Int)
    (σ : Store) (fort : EFort) : EnrichOut :=
  if fault then { fort := fort, store := σ, trace := [] }
  else if isFresh (storeGet σ fort.propsRef) now then
    { fort := fort, store := σ, trace := [] }
  else enrichStale o now σ fort (storeGet σ fort.propsRef)

/-- An oracle in which every network call fails. -/
def oracleAllErr : NetOracle :=
  { commonsSearch := .error ("down".toList)
    commonsImageInfo := fun _ => .error ("down".toList)
    wikipediaSummary := .error ("down".toList)
    wikipediaImagesList := .error ("down".toList)
    wikipediaImageInfo := fun _ => .error ("down".toList)
    wikidataEntity := .error ("down".toList) }

/-- A named properties object with the given `lastFetched`. -/
def ePropsWithLF (t : Option Int) : EProps :=
  { emptyEProps with name := some ("Fort Demo".toList), lastFetched := t }

/-- The feature whose properties live at address 0. -/
def demoEFort : EFort := { propsRef := 0, geom := Geom.point (mkRat 1 1) (mkRat 2 1) }

/-- A heap in which the feature was enriched recently. -/
def storeFresh : Store := [(0, ePropsWithLF (some 1000000))]

/-- A heap in which the feature was never enriched. -/
def storeStale : Store := [(0, ePropsWithLF none)]

theorem historic_clause_eq (h : Option Str) :
    (truthyO h && fortificationTags.any (fun tag =>
        containsSeq (toLowerSeq (jsStr h)) (toLowerSeq tag)))
    = (match h with
       | some hv => fortificationTags.any (fun w =>
           containsSeq (toLowerSeq hv) (toLowerSeq w))
       | none => false) := by
  match h with
  | none => rfl
  | some [] => decide
  | some (c :: cs) => simp [truthyO, jsStr, List.isEmpty]

theorem military_clause_eq (m : Option Str) :
    (truthyO m &&
      (toLowerSeq (jsStr m) = kBunkerLower ||
       toLowerSeq (jsStr m) = kFortressLower))
    = (match m with
       | some mv => toLowerSeq mv = kBunkerLower || toLowerSeq mv = kFortressLower
       | none => false) := by
  match m with
  | none => rfl
  | some [] => decide
  | some (c :: cs) => simp [truthyO, jsStr, List.isEmpty]

/-- C1: every feature output by the OSM normalizer has a Point geometry
whose coordinates are not exactly [0, 0]; and every element lacking lat or
lon is mapped to the placeholder Point [0, 0] (which the final filter
therefore excludes from the output list). -/
theorem claim_C1 :
    (∀ osm : OSMResponse,
      (convertOSMToGeoJSON osm).all (fun f => !isZeroPoint f.geometry) = true) ∧
    (∀ e : OSMElement, e.lat = none ∨ e.lon = none →
      elementGeometry e = Geom.point 0 0) := by
  constructor
  · intro osm
    rw [List.all_eq_true]
    intro f hf
    unfold convertOSMToGeoJSON at hf
    exact (List.mem_filter.mp hf).2
  · intro e h
    rcases h with h | h <;> simp [elementGeometry, truthyQ, h]

/-- Witness for C1 at a concrete way element lacking lat/lon. -/
theorem claim_C1_witness :
    elementGeometry wayElemC1 = Geom.point 0 0 :=
  claim_C1.2 wayElemC1 (Or.inl rfl)

/-- C2: normalizing the one-element OSM document yields exactly one
feature, with id "1", geometry Point [2.3, 48.8] (longitude first) and a
property bag containing historic, name, display_type "Castle" and
"@id" = "node/1". -/
theorem claim_C2 :
    ((convertOSMToGeoJSON osmDocC2).map (fun f => (f.fid, f.geometry))
      = [(some ("1".toList), Geom.point (mkRat 23 10) (mkRat 244 5))]) ∧
    ((convertOSMToGeoJSON osmDocC2).map (fun f =>
        (getProp f.props kHistoric, getProp f.props kName,
         getProp f.props kDisplayType, getProp f.props kAtId))
      = [(some ("castle".toList), some ("Test Castle".toList),
          some ("Castle".toList), some ("node/1".toList))]) := by
  constructor <;> decide

/-- C3 counterexample: an element whose only tag is `defence` with the
empty-string value has a defence tag key, yet the code drops it — the
claimed retention criterion (iii) "regardless of that tag's value" does
not hold of the code. -/
theorem claim_C3_counterexample :
    retainElement elemDefenceEmpty = false ∧
    specRetainStated elemDefenceEmpty = true := by
  decide

/-- C3 amended: an element is retained if and only if it has a tag
mapping and (i) its historic tag value case-insensitively contains one of
the twelve vocabulary words, or (ii) its military tag value is exactly
"bunker" or "fortress" case-insensitively, or (iii) it has a defence or
defense tag with a non-empty value. -/
theorem claim_C3_amended :
    ∀ e : OSMElement, retainElement e = specRetainAmended e := by
  intro e
  cases htags : e.tags with
  | none => simp [retainElement, specRetainAmended, htags]
  | some tags =>
    simp only [retainElement, specRetainAmended, htags]
    rw [historic_clause_eq, military_clause_eq]


theorem trim_nameOf_nil (f : Feature)
    (h1 : trimSeq (jsStr (getProp f.props kName)) = [])
    (h2 : trimSeq (jsStr (getProp f.props kChpdeno)) = []) :
    trimSeq (nameOf f) = [] := by
  unfold nameOf orTruthy
  cases hb : truthyO (getProp f.props kName) <;> simp [hb]
  · exact h2
  · exact h1

theorem passesAll_no_facets (st : Str) (hst : st.isEmpty = false) (f : Feature) :
    passesAll [] st f
      = (!(trimSeq (nameOf f)).isEmpty && matchesSearchTerm f st) := by
  unfold passesAll
  cases ht : (trimSeq (nameOf f)).isEmpty <;>
    cases hm : matchesSearchTerm f st <;>
      simp [getActive, truthyO, hst, ht, hm]

/-- C4 counterexample: a named feature whose display_type is "Castle"
(and whose raw historic tag is "castle") is dropped by the type facet
`type = "Castle"`, although its claimed resolved type (display-type
first) is "Castle" — the evaluator only consults chptico and historic. -/
theorem claim_C4_counterexample :
    filteredFortifications [fortC4] [(kType, some ("Castle".toList))] [] = [] ∧
    specResolvedType fortC4 = some ("Castle".toList) ∧
    (trimSeq (nameOf fortC4)).isEmpty = false := by
  decide

/-- C4 amended: with the active type facet set to a non-empty value `v`
and an empty search, the evaluator keeps exactly the named features whose
resolved type equals `v` under exact equality, where the resolved type is
the chptico field, falling back to the raw historic field (first truthy
wins); display-type and building/military fields are not consulted. -/
theorem claim_C4_amended (forts : List Feature) (v : Str) (hv : v ≠ []) :
    filteredFortifications forts [(kType, some v)] [] =
      forts.filter (fun f =>
        !(trimSeq (nameOf f)).isEmpty && decide (codeTypeOf f = some v)) := by
  have hvE : v.isEmpty = false := by
    cases v with
    | nil => exact absurd rfl hv
    | cons a l => rfl
  unfold filteredFortifications
  rw [if_neg (by simp)]
  apply List.filter_congr
  intro f _
  unfold passesAll
  have h1 : getActive [(kType, some v)] kType = some v := rfl
  have h2 : getActive [(kType, some v)] kPeriod = none := rfl
  have h3 : getActive [(kType, some v)] kRegion = none := rfl
  rw [h1, h2, h3]
  cases ht : (trimSeq (nameOf f)).isEmpty <;>
    by_cases hc : codeTypeOf f = some v <;>
      simp [truthyO, hvE, ht, hc]

/-- Witness for C4's amended statement at a concrete pair of features:
the feature classified through display_type only is dropped, the one with
chptico "Castle" is kept. -/
theorem claim_C4_witness :
    filteredFortifications [fortC4, fortC4kept]
        [(kType, some ("Castle".toList))] [] =
      [fortC4, fortC4kept].filter (fun f =>
        !(trimSeq (nameOf f)).isEmpty &&
        decide (codeTypeOf f = some ("Castle".toList))) :=
  claim_C4_amended [fortC4, fortC4kept] ("Castle".toList) (by decide)

/-- C5: with a non-empty search term and no facet, a feature is visible
iff it is a named input feature whose normalized name or normalized
address contains the normalized search term (normalization = NFD
decomposition, removal of combining diacritical marks, lowercasing,
trimming); concretely, "chateau" matches a feature named "Château",
"foret" matches "Forêt", and vice versa. -/
theorem claim_C5 :
    (∀ (forts : List Feature) (st : Str) (f : Feature), st ≠ [] →
      (f ∈ filteredFortifications forts [] st ↔
        f ∈ forts ∧ (trimSeq (nameOf f)).isEmpty = false ∧
          (containsSeq (normalizeText (nameOf f)) (normalizeText st) = true ∨
           containsSeq (normalizeText (addrOf f)) (normalizeText st) = true))) ∧
    matchesSearchTerm fortChateauAcc ("chateau".toList) = true ∧
    matchesSearchTerm fortChateauPlain ("Château".toList) = true ∧
    matchesSearchTerm fortForetAcc ("foret".toList) = true ∧
    matchesSearchTerm fortForetPlain ("Forêt".toList) = true := by
  refine ⟨?_, by decide, by decide, by decide, by decide⟩
  intro forts st f hst
  have hstE : st.isEmpty = false := by
    cases st with
    | nil => exact absurd rfl hst
    | cons a l => rfl
  unfold filteredFortifications
  rw [if_neg (by simp [hstE])]
  rw [List.mem_filter, passesAll_no_facets st hstE f]
  unfold matchesSearchTerm
  constructor
  · rintro ⟨hm, hp⟩
    rw [Bool.and_eq_true, Bool.not_eq_true', Bool.or_eq_true] at hp
    exact ⟨hm, hp.1, hp.2⟩
  · rintro ⟨hm, hn, ho⟩
    refine ⟨hm, ?_⟩
    rw [Bool.and_eq_true, Bool.not_eq_true', Bool.or_eq_true]
    exact ⟨hn, ho⟩

/-- Witness for C5 at a concrete accented feature and unaccented term. -/
theorem claim_C5_witness :
    fortChateauAcc ∈ filteredFortifications [fortChateauAcc] [] ("chateau".toList) :=
  (claim_C5.1 [fortChateauAcc] ("chateau".toList) fortChateauAcc (by decide)).mpr
    ⟨by decide, by decide, Or.inl (by decide)⟩

/-- C6: a feature whose name and chpdeno are both absent or
whitespace-only is excluded from the map view's visible set, in the
default state and whenever any search term or filters are active (the
unnamed exclusion is applied before the search and facet predicates). -/
theorem claim_C6 (forts : List Feature) (af : ActiveF) (st : Str) (f : Feature)
    (h1 : trimSeq (jsStr (getProp f.props kName)) = [])
    (h2 : trimSeq (jsStr (getProp f.props kChpdeno)) = []) :
    f ∉ filteredFortifications forts af st := by
  have hn : trimSeq (nameOf f) = [] := trim_nameOf_nil f h1 h2
  intro hf
  unfold filteredFortifications at hf
  split at hf
  · have hmem := (List.mem_filter.mp hf).2
    rw [hn] at hmem
    simp at hmem
  · have hmem := (List.mem_filter.mp hf).2
    unfold passesAll at hmem
    rw [hn] at hmem
    simp at hmem

/-- Witness for C6: a whitespace-named feature stays excluded even though
its address matches the search and its chptico matches the type facet. -/
theorem claim_C6_witness :
    fortUnnamed ∉ filteredFortifications [fortUnnamed]
      [(kType, some ("Castle".toList))] ("paris".toList) :=
  claim_C6 [fortUnnamed] [(kType, some ("Castle".toList))]
    ("paris".toList) fortUnnamed (by decide) (by decide)

theorem keysOf_cons (a : Str × Nat) (t : List (Str × Nat)) :
    keysOf (a :: t) = a.1 :: keysOf t := rfl

theorem cnt_bump (m : List (Str × Nat)) (k k' : Str) :
    cnt (bump m k) k' = cnt m k' + (if k = k' then 1 else 0) := by
  induction m with
  | nil =>
    by_cases h : k = k' <;> simp [bump, cnt, h]
  | cons e t ih =>
    obtain ⟨k0, c0⟩ := e
    simp only [bump]
    by_cases h0 : k0 = k
    · subst h0
      simp only [if_pos rfl, cnt]
      by_cases h1 : k0 = k'
      · subst h1
        simp
      · simp [h1]
    · simp only [if_neg h0, cnt]
      by_cases h1 : k0 = k'
      · subst h1
        rw [if_pos rfl, if_pos rfl, if_neg (fun he => h0 he.symm)]
        rfl
      · simp only [if_neg h1]
        rw [ih]

theorem mem_keys_bump (m : List (Str × Nat)) (k k' : Str) :
    k' ∈ keysOf (bump m k) ↔ k' ∈ keysOf m ∨ k' = k := by
  induction m with
  | nil => simp [bump, keysOf]
  | cons e t ih =>
    obtain ⟨k0, c0⟩ := e
    simp only [bump]
    by_cases h0 : k0 = k
    · subst h0
      rw [if_pos rfl]
      simp only [keysOf_cons, List.mem_cons]
      tauto
    · rw [if_neg h0]
      simp only [keysOf_cons, List.mem_cons, ih]
      tauto

theorem nodup_keys_bump (m : List (Str × Nat)) (k : Str)
    (h : (keysOf m).Nodup) : (keysOf (bump m k)).Nodup := by
  induction m with
  | nil => simp [bump, keysOf]
  | cons e t ih =>
    obtain ⟨k0, c0⟩ := e
    rw [keysOf, List.map_cons, List.nodup_cons] at h
    by_cases h0 : k0 = k
    · rw [bump, if_pos h0, keysOf, List.map_cons, List.nodup_cons]
      exact h
    · rw [bump, if_neg h0, keysOf, List.map_cons, List.nodup_cons]
      refine ⟨?_, ih h.2⟩
      intro hc
      rcases (mem_keys_bump t k k0).mp hc with hm | he
      · exact h.1 hm
      · exact h0 he

theorem cnt_of_mem_nodup (m : List (Str × Nat)) (k : Str) (c : Nat)
    (h : (keysOf m).Nodup) (hm : (k, c) ∈ m) : cnt m k = c := by
  induction m with
  | nil => cases hm
  | cons e t ih =>
    obtain ⟨k0, c0⟩ := e
    rw [keysOf, List.map_cons, List.nodup_cons] at h
    rcases List.mem_cons.mp hm with he | ht
    · obtain ⟨hk, hc⟩ := Prod.mk.injEq .. ▸ he
      subst hk; subst hc
      simp [cnt]
    · have hkmem : k ∈ keysOf t := by
        rw [keysOf]
        exact List.mem_map_of_mem (fun e => e.1) ht
      have hne : k0 ≠ k := fun heq => h.1 (by rw [heq]; exact hkmem)
      rw [cnt, if_neg hne]
      exact ih h.2 ht

theorem cnt_foldl (keyOf : Feature → Option Str) (l : List Feature)
    (m : List (Str × Nat)) (k : Str) :
    cnt (l.foldl (stepOf keyOf) m) k
      = cnt m k + (l.filter (fun f => decide (keyOf f = some k))).length := by
  induction l generalizing m with
  | nil => simp
  | cons f t ih =>
    rw [List.foldl_cons]
    cases hk : keyOf f with
    | none =>
      rw [show stepOf keyOf m f = m by simp [stepOf, hk]]
      rw [ih, List.filter_cons]
      simp [hk]
    | some k0 =>
      rw [show stepOf keyOf m f = bump m k0 by simp [stepOf, hk]]
      rw [ih, cnt_bump, List.filter_cons]
      by_cases h : k0 = k
      · simp [hk, h]
        omega
      · simp [hk, h]

theorem cnt_countMapBy (keyOf : Feature → Option Str) (forts : List Feature)
    (k : Str) :
    cnt (countMapBy keyOf forts) k
      = (forts.filter (fun f => decide (keyOf f = some k))).length := by
  have h := cnt_foldl keyOf forts [] k
  rw [countMapBy, h]
  simp [cnt]

theorem mem_keys_foldl (keyOf : Feature → Option Str) (l : List Feature)
    (m : List (Str × Nat)) (k : Str) :
    k ∈ keysOf (l.foldl (stepOf keyOf) m)
      ↔ k ∈ keysOf m ∨ ∃ f ∈ l, keyOf f = some k := by
  induction l generalizing m with
  | nil => simp
  | cons f t ih =>
    rw [List.foldl_cons]
    cases hk : keyOf f with
    | none =>
      rw [show stepOf keyOf m f = m by simp [stepOf, hk]]
      rw [ih]
      simp [hk]
    | some k0 =>
      rw [show stepOf keyOf m f = bump m k0 by simp [stepOf, hk]]
      rw [ih]
      simp only [mem_keys_bump, List.mem_cons, hk]
      constructor
      · rintro (((hm | he) | hex))
        · exact Or.inl hm
        · exact Or.inr ⟨f, Or.inl rfl, by rw [hk, he]⟩
        · obtain ⟨g, hg, hgk⟩ := hex
          exact Or.inr ⟨g, Or.inr hg, hgk⟩
      · rintro (hm | ⟨g, (hg | hg), hgk⟩)
        · exact Or.inl (Or.inl hm)
        · subst hg
          rw [hk] at hgk
          exact Or.inl (Or.inr (Option.some.inj hgk).symm)
        · exact Or.inr ⟨g, hg, hgk⟩

theorem nodup_keys_foldl (keyOf : Feature → Option Str) (l : List Feature)
    (m : List (Str × Nat)) (h : (keysOf m).Nodup) :
    (keysOf (l.foldl (stepOf keyOf) m)).Nodup := by
  induction l generalizing m with
  | nil => exact h
  | cons f t ih =>
    rw [List.foldl_cons]
    cases hk : keyOf f with
    | none =>
      rw [show stepOf keyOf m f = m by simp [stepOf, hk]]
      exact ih m h
    | some k0 =>
      rw [show stepOf keyOf m f = bump m k0 by simp [stepOf, hk]]
      exact ih (bump m k0) (nodup_keys_bump m k0 h)

theorem nodup_keys_countMapBy (keyOf : Feature → Option Str)
    (forts : List Feature) : (keysOf (countMapBy keyOf forts)).Nodup :=
  nodup_keys_foldl keyOf forts [] (by simp [keysOf])

theorem countMapBy_eq_nil_iff (keyOf : Feature → Option Str)
    (forts : List Feature) :
    countMapBy keyOf forts = [] ↔ ∀ f ∈ forts, keyOf f = none := by
  constructor
  · intro h f hf
    cases hk : keyOf f with
    | none => rfl
    | some k =>
      exfalso
      have hmem : k ∈ keysOf (countMapBy keyOf forts) :=
        (mem_keys_foldl keyOf forts [] k).mpr (Or.inr ⟨f, hf, hk⟩)
      rw [h] at hmem
      simp [keysOf] at hmem
  · intro h
    induction forts with
    | nil => rfl
    | cons f t ih =>
      have hf := h f (List.mem_cons_self f t)
      rw [countMapBy, List.foldl_cons,
        show stepOf keyOf [] f = [] by simp [stepOf, hf]]
      exact ih (fun g hg => h g (List.mem_cons_of_mem f hg))

theorem insertDesc_perm (x : FilterOption) (l : List FilterOption) :
    List.Perm (insertDesc x l) (x :: l) := by
  induction l with
  | nil => simp [insertDesc]
  | cons y t ih =>
    rw [insertDesc]
    split
    · exact List.Perm.refl _
    · exact (List.Perm.cons y ih).trans (List.Perm.swap x y t)

theorem sortDesc_aux_perm (l acc : List FilterOption) :
    List.Perm (l.foldl (fun acc x => insertDesc x acc) acc) (acc ++ l) := by
  induction l generalizing acc with
  | nil => simp
  | cons x t ih =>
    rw [List.foldl_cons]
    exact (ih (insertDesc x acc)).trans
      (((insertDesc_perm x acc).append_right t).trans List.perm_middle.symm)

theorem sortDesc_perm (l : List FilterOption) : List.Perm (sortDesc l) l := by
  have h := sortDesc_aux_perm l []
  rw [List.nil_append] at h
  exact h

theorem insertDesc_sorted (x : FilterOption) (l : List FilterOption)
    (h : List.Pairwise (fun a b => b.count ≤ a.count) l) :
    List.Pairwise (fun a b => b.count ≤ a.count) (insertDesc x l) := by
  induction l with
  | nil => simp [insertDesc]
  | cons y t ih =>
    obtain ⟨hy, ht⟩ := List.pairwise_cons.mp h
    rw [insertDesc]
    split
    case isTrue hlt =>
      refine List.pairwise_cons.mpr ⟨?_, h⟩
      intro z hz
      rcases List.mem_cons.mp hz with rfl | hzt
      · exact le_of_lt hlt
      · exact le_trans (hy z hzt) (le_of_lt hlt)
    case isFalse hge =>
      refine List.pairwise_cons.mpr ⟨?_, ih ht⟩
      intro z hz
      rcases List.mem_cons.mp ((insertDesc_perm x t).mem_iff.mp hz) with rfl | hzt
      · exact Nat.le_of_not_lt hge
      · exact hy z hzt

theorem sortDesc_aux_sorted (l acc : List FilterOption)
    (h : List.Pairwise (fun a b => b.count ≤ a.count) acc) :
    List.Pairwise (fun a b => b.count ≤ a.count)
      (l.foldl (fun acc x => insertDesc x acc) acc) := by
  induction l generalizing acc with
  | nil => exact h
  | cons x t ih =>
    rw [List.foldl_cons]
    exact ih (insertDesc x acc) (insertDesc_sorted x acc h)

theorem sortDesc_sorted (l : List FilterOption) :
    List.Pairwise (fun a b => b.count ≤ a.count) (sortDesc l) :=
  sortDesc_aux_sorted l [] (List.Pairwise.nil)

theorem mkOptions_length (pre : Str) (m : List (Str × Nat)) :
    (mkOptions pre m).length = m.length := by
  simp [mkOptions]

theorem mkOptions_values (pre : Str) (m : List (Str × Nat)) :
    (mkOptions pre m).map (fun o => o.value) = keysOf m := by
  simp only [mkOptions, keysOf, List.map_map]
  rfl

theorem group_options_spec (keyOf : Feature → Option Str) (pre : Str)
    (forts : List Feature) :
    ((sortDesc (mkOptions pre (countMapBy keyOf forts))).map
        (fun o => o.value)).Nodup ∧
    List.Pairwise (fun a b => b.count ≤ a.count)
      (sortDesc (mkOptions pre (countMapBy keyOf forts))) ∧
    (∀ o ∈ sortDesc (mkOptions pre (countMapBy keyOf forts)),
      o.count = (forts.filter (fun f => decide (keyOf f = some o.value))).length) ∧
    (∀ f ∈ forts, ∀ k, keyOf f = some k →
      k ∈ (sortDesc (mkOptions pre (countMapBy keyOf forts))).map
        (fun o => o.value)) := by
  have hperm : List.Perm (sortDesc (mkOptions pre (countMapBy keyOf forts)))
      (mkOptions pre (countMapBy keyOf forts)) := sortDesc_perm _
  refine ⟨?_, sortDesc_sorted _, ?_, ?_⟩
  · rw [(hperm.map (fun o => o.value)).nodup_iff, mkOptions_values]
    exact nodup_keys_countMapBy keyOf forts
  · intro o ho
    obtain ⟨e, hem, heq⟩ := List.mem_map.mp (hperm.mem_iff.mp ho)
    subst heq
    show e.2 = (forts.filter (fun f => decide (keyOf f = some e.1))).length
    have h1 : cnt (countMapBy keyOf forts) e.1 = e.2 :=
      cnt_of_mem_nodup (countMapBy keyOf forts) e.1 e.2
        (nodup_keys_countMapBy keyOf forts) (by simpa using hem)
    rw [← h1]
    exact cnt_countMapBy keyOf forts e.1
  · intro f hf k hk
    have hkm : k ∈ keysOf (countMapBy keyOf forts) := by
      rw [countMapBy]
      exact (mem_keys_foldl keyOf forts [] k).mpr (Or.inr ⟨f, hf, hk⟩)
    refine (hperm.map (fun o => o.value)).mem_iff.mpr ?_
    rw [mkOptions_values]
    exact hkm

theorem truthyKey_ne_none (v : Option Str) :
    ((if truthyO v then v else none) ≠ none) ↔ truthyO v = true := by
  cases hb : truthyO v
  · simp
  · simp only [if_pos rfl, iff_true]
    cases v with
    | none => simp [truthyO] at hb
    | some s => simp

theorem len_pos_iff_any (keyOf : Feature → Option Str) (forts : List Feature) :
    (0 < (countMapBy keyOf forts).length) ↔ (∃ f ∈ forts, keyOf f ≠ none) := by
  rw [List.length_pos, Ne, countMapBy_eq_nil_iff]
  push_neg
  rfl

theorem periodOptions_pos_iff (forts : List Feature) :
    (0 < (periodOptionsOf forts).length)
      ↔ forts.any (fun f => truthyO (getProp f.props kPeriod)) = true := by
  rw [periodOptionsOf, (sortDesc_perm _).length_eq, mkOptions_length,
    len_pos_iff_any, List.any_eq_true]
  constructor
  · rintro ⟨f, hf, hn⟩
    exact ⟨f, hf, (truthyKey_ne_none (getProp f.props kPeriod)).mp hn⟩
  · rintro ⟨f, hf, ht⟩
    exact ⟨f, hf, (truthyKey_ne_none (getProp f.props kPeriod)).mpr ht⟩

theorem regionOptions_pos_iff (forts : List Feature) :
    (0 < (regionOptionsOf forts).length)
      ↔ forts.any (fun f => truthyO (getProp f.props kChpreg)) = true := by
  rw [regionOptionsOf, (sortDesc_perm _).length_eq, mkOptions_length,
    len_pos_iff_any, List.any_eq_true]
  constructor
  · rintro ⟨f, hf, hn⟩
    exact ⟨f, hf, (truthyKey_ne_none (getProp f.props kChpreg)).mp hn⟩
  · rintro ⟨f, hf, ht⟩
    exact ⟨f, hf, (truthyKey_ne_none (getProp f.props kChpreg)).mpr ht⟩

theorem mem_generateFilters (forts : List Feature) (g : FilterGroup) :
    g ∈ generateFilters forts ↔
      (g = typeGroupOf forts ∨
       (0 < (periodOptionsOf forts).length ∧ g = periodGroupOf forts) ∨
       (0 < (regionOptionsOf forts).length ∧ g = regionGroupOf forts)) := by
  unfold generateFilters
  by_cases hp : 0 < (periodOptionsOf forts).length <;>
    by_cases hr : 0 < (regionOptionsOf forts).length <;>
      simp [hp, hr]

theorem groupKeyOf_type (f : Feature) :
    groupKeyOf kType f = some (typeKeyOf f) := rfl

theorem groupKeyOf_period (f : Feature) :
    groupKeyOf kPeriod f = periodKeyOf f := by
  rw [groupKeyOf, if_neg (by decide), if_pos rfl]

theorem groupKeyOf_region (f : Feature) :
    groupKeyOf kRegion f = regionKeyOf f := by
  rw [groupKeyOf, if_neg (by decide), if_neg (by decide), if_pos rfl]

/-- C7: the filter index builder always returns the type group first
(counting features with neither chptico nor historic under "Unknown"),
returns a period group exactly when some feature has a (non-empty) period
value and a region group exactly when some feature has a (non-empty)
chpreg value, and within each group the options are the distinct observed
values with their occurrence counts, sorted by count descending. -/
theorem claim_C7 (forts : List Feature) :
    ((generateFilters forts).map (fun g => g.gid)
      = kType ::
        ((if forts.any (fun f => truthyO (getProp f.props kPeriod))
            then [kPeriod] else []) ++
         (if forts.any (fun f => truthyO (getProp f.props kChpreg))
            then [kRegion] else []))) ∧
    (∀ f : Feature, getProp f.props kChptico = none →
      getProp f.props kHistoric = none → typeKeyOf f = kUnknown) ∧
    (∀ g ∈ generateFilters forts,
      ((g.options.map (fun o => o.value)).Nodup ∧
       List.Pairwise (fun a b => b.count ≤ a.count) g.options ∧
       ∀ o ∈ g.options,
         o.count = (forts.filter
           (fun f => decide (groupKeyOf g.gid f = some o.value))).length)) ∧
    (∀ g ∈ generateFilters forts, ∀ f ∈ forts, ∀ k,
      groupKeyOf g.gid f = some k → k ∈ g.options.map (fun o => o.value)) := by
  refine ⟨?_, ?_, ?_, ?_⟩
  · unfold generateFilters
    by_cases hp : forts.any (fun f => truthyO (getProp f.props kPeriod)) = true
    · rw [if_pos ((periodOptions_pos_iff forts).mpr hp), if_pos hp]
      by_cases hr : forts.any (fun f => truthyO (getProp f.props kChpreg)) = true
      · rw [if_pos ((regionOptions_pos_iff forts).mpr hr), if_pos hr]
        rfl
      · rw [if_neg (fun hc => hr ((regionOptions_pos_iff forts).mp hc)), if_neg hr]
        rfl
    · rw [if_neg (fun hc => hp ((periodOptions_pos_iff forts).mp hc)), if_neg hp]
      by_cases hr : forts.any (fun f => truthyO (getProp f.props kChpreg)) = true
      · rw [if_pos ((regionOptions_pos_iff forts).mpr hr), if_pos hr]
        rfl
      · rw [if_neg (fun hc => hr ((regionOptions_pos_iff forts).mp hc)), if_neg hr]
        rfl
  · intro f h1 h2
    unfold typeKeyOf
    rw [h1, h2]
    rfl
  · intro g hg
    rcases (mem_generateFilters forts g).mp hg with rfl | ⟨hp, rfl⟩ | ⟨hr, rfl⟩
    · have hs := group_options_spec (fun f => some (typeKeyOf f)) kTypeDash forts
      refine ⟨hs.1, hs.2.1, ?_⟩
      intro o ho
      rw [show (typeGroupOf forts).gid = kType from rfl,
        List.filter_congr (fun f _ => by rw [groupKeyOf_type])]
      exact hs.2.2.1 o ho
    · have hs := group_options_spec periodKeyOf kPeriodDash forts
      refine ⟨hs.1, hs.2.1, ?_⟩
      intro o ho
      rw [show (periodGroupOf forts).gid = kPeriod from rfl,
        List.filter_congr (fun f _ => by rw [groupKeyOf_period])]
      exact hs.2.2.1 o ho
    · have hs := group_options_spec regionKeyOf kRegionDash forts
      refine ⟨hs.1, hs.2.1, ?_⟩
      intro o ho
      rw [show (regionGroupOf forts).gid = kRegion from rfl,
        List.filter_congr (fun f _ => by rw [groupKeyOf_region])]
      exact hs.2.2.1 o ho
  · intro g hg f hf k hk
    rcases (mem_generateFilters forts g).mp hg with rfl | ⟨hp, rfl⟩ | ⟨hr, rfl⟩
    · refine (group_options_spec (fun f => some (typeKeyOf f)) kTypeDash forts).2.2.2
        f hf k ?_
      rw [show (typeGroupOf forts).gid = kType from rfl, groupKeyOf_type] at hk
      exact hk
    · refine (group_options_spec periodKeyOf kPeriodDash forts).2.2.2 f hf k ?_
      rw [show (periodGroupOf forts).gid = kPeriod from rfl,
        groupKeyOf_period] at hk
      exact hk
    · refine (group_options_spec regionKeyOf kRegionDash forts).2.2.2 f hf k ?_
      rw [show (regionGroupOf forts).gid = kRegion from rfl,
        groupKeyOf_region] at hk
      exact hk

/-- Witness for C7 at a concrete two-feature list (no classification
fields, a shared period, no region): the Unknown fallback, the produced
group ids, and the type option's count. -/
theorem claim_C7_witness :
    typeKeyOf fortDemoA = kUnknown ∧
    (generateFilters [fortDemoA, fortDemoB]).map (fun g => g.gid)
      = kType ::
        ((if [fortDemoA, fortDemoB].any
              (fun f => truthyO (getProp f.props kPeriod))
            then [kPeriod] else []) ++
         (if [fortDemoA, fortDemoB].any
              (fun f => truthyO (getProp f.props kChpreg))
            then [kRegion] else [])) ∧
    ({ oid := "type-Unknown".toList, label := kUnknown, value := kUnknown,
       count := 2 } : FilterOption).count
      = ([fortDemoA, fortDemoB].filter (fun f =>
          decide (groupKeyOf (typeGroupOf [fortDemoA, fortDemoB]).gid f
            = some ({ oid := "type-Unknown".toList, label := kUnknown,
                      value := kUnknown, count := 2 } : FilterOption).value))).length :=
  ⟨(claim_C7 []).2.1 fortDemoA (by decide) (by decide),
   (claim_C7 [fortDemoA, fortDemoB]).1,
   ((claim_C7 [fortDemoA, fortDemoB]).2.2.1 (typeGroupOf [fortDemoA, fortDemoB])
      (by decide)).2.2
     { oid := "type-Unknown".toList, label := kUnknown, value := kUnknown,
       count := 2 } (by decide)⟩

theorem storeGet_set (σ : Store) (r : Nat) (p : EProps) :
    storeGet (storeSet σ r p) r = p := by
  simp [storeGet, storeSet]

theorem commonsSearch_in_search_trace (o : NetOracle) :
    kCallCommonsSearch ∈ (searchWikimediaCommonsT o).2 := by
  unfold searchWikimediaCommonsT
  cases o.commonsSearch with
  | error e => simp
  | ok v =>
    cases v with
    | none => simp
    | some items => simp

theorem commonsSearch_in_google_trace (o : NetOracle) (sk : Str) :
    kCallCommonsSearch ∈ (fetchGoogleImagesT o sk).2 := by
  unfold fetchGoogleImagesT
  split
  · exact commonsSearch_in_search_trace o
  · exact commonsSearch_in_search_trace o

theorem commonsSearch_in_enrich_trace (o : NetOracle) (fort : EFort)
    (p : EProps) : kCallCommonsSearch ∈ enrichTrace o fort p := by
  unfold enrichTrace
  exact List.mem_append.mpr (Or.inl (List.mem_append.mpr
    (Or.inl (commonsSearch_in_google_trace o (searchKeyOf fort p)))))

theorem enrich_not_fresh (o : NetOracle) (now : Int) (σ : Store)
    (fort : EFort) (hf : isFresh (storeGet σ fort.propsRef) now = false) :
    enrichFortification o false now σ fort
      = enrichStale o now σ fort (storeGet σ fort.propsRef) := by
  unfold enrichFortification
  rw [if_neg (by simp), if_neg (by simp [hf])]

/-- C8: enrichment freshness — with a `lastFetched` within the past 24
hours the call returns the feature unchanged, leaves the heap untouched
and issues no network call; with `lastFetched` absent or at least 24
hours old, the lookups run (the image search is always issued) and
`lastFetched` is overwritten with the current time, whatever every
oracle answered. -/
theorem claim_C8 :
    (∀ (o : NetOracle) (now t : Int) (σ : Store) (fort : EFort),
      (storeGet σ fort.propsRef).lastFetched = some t →
      now - oneDayMs < t →
      enrichFortification o false now σ fort
        = { fort := fort, store := σ, trace := [] }) ∧
    (∀ (o : NetOracle) (now : Int) (σ : Store) (fort : EFort),
      ((storeGet σ fort.propsRef).lastFetched = none ∨
       (∃ t, (storeGet σ fort.propsRef).lastFetched = some t ∧
         t ≤ now - oneDayMs)) →
      ((storeGet (enrichFortification o false now σ fort).store
          fort.propsRef).lastFetched = some now ∧
       kCallCommonsSearch ∈ (enrichFortification o false now σ fort).trace)) := by
  constructor
  · intro o now t σ fort h1 h2
    have hf : isFresh (storeGet σ fort.propsRef) now = true := by
      unfold isFresh
      rw [h1]
      simpa using h2
    unfold enrichFortification
    rw [if_neg (by simp), if_pos hf]
  · intro o now σ fort h
    have hf : isFresh (storeGet σ fort.propsRef) now = false := by
      unfold isFresh
      rcases h with h1 | ⟨t, h1, h2⟩
      · rw [h1]
      · rw [h1]
        simp only [decide_eq_false_iff_not, not_lt]
        exact h2
    rw [enrich_not_fresh o now σ fort hf]
    constructor
    · show (storeGet (enrichStale o now σ fort (storeGet σ fort.propsRef)).store
        fort.propsRef).lastFetched = some now
      unfold enrichStale
      rw [storeGet_set]
    · exact commonsSearch_in_enrich_trace o fort (storeGet σ fort.propsRef)

/-- Witness for C8 at a concrete feature and all-failing oracle: a
`lastFetched` well within the 24-hour window (fresh) and a never-fetched
heap (stale). -/
theorem claim_C8_witness :
    enrichFortification oracleAllErr false 1000100 storeFresh demoEFort
      = { fort := demoEFort, store := storeFresh, trace := [] } ∧
    ((storeGet (enrichFortification oracleAllErr false 1000100 storeStale
        demoEFort).store demoEFort.propsRef).lastFetched = some 1000100 ∧
     kCallCommonsSearch ∈ (enrichFortification oracleAllErr false 1000100
        storeStale demoEFort).trace) :=
  ⟨claim_C8.1 oracleAllErr 1000100 1000000 storeFresh demoEFort
      (by decide) (by decide),
   claim_C8.2 oracleAllErr 1000100 storeStale demoEFort (Or.inl (by decide))⟩

/-- C9: per-source error recovery — running enrichment with a failing
Wikidata / Wikipedia-summary / Wikipedia-images / Commons-search fetch
gives exactly the run in which that source answered with no data, and
the call always resolves with the (copied) feature; only the modelled
unexpected top-level exception makes the call return the original
feature with nothing written. -/
theorem claim_C9 :
    (∀ (o : NetOracle) (e : Str) (now : Int) (σ : Store) (fort : EFort),
      enrichFortification { o with wikidataEntity := .error e } false now σ fort
        = enrichFortification { o with wikidataEntity := .ok { entities := none } }
            false now σ fort) ∧
    (∀ (o : NetOracle) (e : Str) (now : Int) (σ : Store) (fort : EFort),
      enrichFortification { o with wikipediaSummary := .error e } false now σ fort
        = enrichFortification { o with wikipediaSummary := .ok { pages := none } }
            false now σ fort) ∧
    (∀ (o : NetOracle) (e : Str) (now : Int) (σ : Store) (fort : EFort),
      enrichFortification { o with wikipediaImagesList := .error e } false now σ fort
        = enrichFortification { o with wikipediaImagesList := .ok none }
            false now σ fort) ∧
    (∀ (o : NetOracle) (e : Str) (now : Int) (σ : Store) (fort : EFort),
      enrichFortification { o with commonsSearch := .error e } false now σ fort
        = enrichFortification { o with commonsSearch := .ok none }
            false now σ fort) ∧
    (∀ (o : NetOracle) (now : Int) (σ : Store) (fort : EFort),
      (enrichFortification o false now σ fort).fort = fort) ∧
    (∀ (o : NetOracle) (now : Int) (σ : Store) (fort : EFort),
      enrichFortification o true now σ fort
        = { fort := fort, store := σ, trace := [] }) := by
  refine ⟨fun o e now σ fort => rfl, fun o e now σ fort => rfl,
    fun o e now σ fort => rfl, fun o e now σ fort => rfl, ?_,
    fun o now σ fort => rfl⟩
  intro o now σ fort
  unfold enrichFortification
  rw [if_neg (by simp)]
  split
  · rfl
  · rfl

/-- C10: the success path's copy is shallow — the returned feature holds
the same properties address as the input (so the two share one
properties object), and on a stale run the whole write set, including
the `lastFetched` stamp, is what the input feature's own address
dereferences to afterwards. -/
theorem claim_C10 :
    (∀ (o : NetOracle) (fault : Bool) (now : Int) (σ : Store) (fort : EFort),
      (enrichFortification o fault now σ fort).fort.propsRef = fort.propsRef) ∧
    (∀ (o : NetOracle) (now : Int) (σ : Store) (fort : EFort),
      isFresh (storeGet σ fort.propsRef) now = false →
      storeGet (enrichFortification o false now σ fort).store fort.propsRef
        = { enrichProps o fort (storeGet σ fort.propsRef) with
            lastFetched := some now }) := by
  constructor
  · intro o fault now σ fort
    unfold enrichFortification
    cases fault
    · simp only [Bool.false_eq_true, if_false]
      split
      · rfl
      · rfl
    · rfl
  · intro o now σ fort hf
    rw [enrich_not_fresh o now σ fort hf]
    unfold enrichStale
    rw [storeGet_set]

/-- Witness for C10 at the concrete stale heap: the returned feature
aliases address 0 and the enrichment writes are visible there. -/
theorem claim_C10_witness :
    (enrichFortification oracleAllErr false 1000100 storeStale
      demoEFort).fort.propsRef = demoEFort.propsRef ∧
    storeGet (enrichFortification oracleAllErr false 1000100 storeStale
        demoEFort).store demoEFort.propsRef
      = { enrichProps oracleAllErr demoEFort (storeGet storeStale
            demoEFort.propsRef) with lastFetched := some 1000100 } :=
  ⟨claim_C10.1 oracleAllErr false 1000100 storeStale demoEFort,
   claim_C10.2 oracleAllErr 1000100 storeStale demoEFort (by decide)⟩
